import Mathlib

/-!
# Verification of the Ripple → REDCap reconciliation engine

Shallow embedding of `src/hbnmigration/from_ripple/to_redcap.py` and the
API-fetch helper in `src/hbnmigration/utility_functions/custom.py`.

Pandas `DataFrame`s are modelled as a list of column names (in pandas column
order) together with rows of cell values; a cell is a string, an integer or
NaN.  Python exceptions are modelled by an explicit error type, and the run
orchestrator (`main`) by a function producing an event trace together with the
exception, if any, escaping the run.
-/

namespace HbnMigration

/-- Decidable equality of `Except` results, for evaluating the embedded
functions on concrete inputs. -/
instance exceptDecEq {ε α : Type} [DecidableEq ε] [DecidableEq α] :
    DecidableEq (Except ε α) := fun x y =>
  match x, y with
  | .ok a, .ok b =>
    if h : a = b then .isTrue (by simp [h]) else .isFalse (by simp [h])
  | .error a, .error b =>
    if h : a = b then .isTrue (by simp [h]) else .isFalse (by simp [h])
  | .ok _, .error _ => .isFalse (by simp)
  | .error _, .ok _ => .isFalse (by simp)

/-! ## Kernel-reducible models of the Python string operations used -/

/-- `s.endswith(pat)` (Python) / the pandas `str.endswith` used to discover
`contactType` columns. -/
def strEndsWith (s pat : String) : Bool := pat.data.isSuffixOf s.data

/-- Replace every non-overlapping occurrence of `pat` (left to right) in the
tail of the list, with enough fuel to consume the whole list. -/
def replaceAllAux (pat rep : List Char) : Nat → List Char → List Char
  | _, [] => []
  | 0, l => l
  | fuel + 1, c :: cs =>
    if pat ≠ [] ∧ pat.isPrefixOf (c :: cs) then
      rep ++ replaceAllAux pat rep fuel ((c :: cs).drop pat.length)
    else c :: replaceAllAux pat rep fuel cs

/-- `s.replace(pat, rep)` (Python): replace all non-overlapping occurrences,
scanning left to right. -/
def strReplace (s pat rep : String) : String :=
  ⟨replaceAllAux pat.data rep.data s.data.length s.data⟩

/-- The numeric value of a decimal digit character, if it is one. -/
def digitVal (c : Char) : Option Nat :=
  if c = '0' then some 0 else if c = '1' then some 1 else if c = '2' then some 2
  else if c = '3' then some 3 else if c = '4' then some 4 else if c = '5' then some 5
  else if c = '6' then some 6 else if c = '7' then some 7 else if c = '8' then some 8
  else if c = '9' then some 9 else none

/-- Parse a nonempty run of decimal digits. -/
def parseDigits : List Char → Option Nat
  | [] => none
  | [c] => digitVal c
  | c :: cs => do
    let d ← digitVal c
    let rest ← parseDigits cs
    return d * 10 ^ cs.length + rest

/-- `int(s)` (Python), as used by `astype(int)` on string cells: an optional
sign followed by decimal digits; anything else raises `ValueError`. -/
def strToInt (s : String) : Option Int :=
  match s.data with
  | '-' :: cs => (parseDigits cs).map (fun n => -(n : Int))
  | '+' :: cs => (parseDigits cs).map (fun n => (n : Int))
  | cs => (parseDigits cs).map (fun n => (n : Int))

/-- Whether a string consists only of whitespace, for the
`response.text.strip()` emptiness test in `_fetch_api_data`. -/
def strIsBlank (s : String) : Bool := s.data.all (fun c => c = ' ' || c = '\n' || c = '\t' || c = '\r')

/-! ## Data model -/

/-- A pandas cell value: a string, an integer, or NaN (missing). -/
inductive RVal where
  | vstr : String → RVal
  | vint : Int → RVal
  | nan : RVal
deriving DecidableEq, Repr

/-- Python exceptions relevant to the run, by their origin in the source.
`valueErrorEmptyIdxmax` and `valueErrorIntCast` are both Python `ValueError`s
(the former from `idxmax` over zero columns, the latter from `astype(int)` on a
non-numeric cell); `requestException` covers `requests.exceptions.RequestException`
and its subclasses (timeouts, connection errors, `HTTPError`). -/
inductive Exc where
  | noData
  | keyError
  | valueErrorEmptyIdxmax
  | valueErrorIntCast
  | requestException
  | httpError
  | fileNotFoundError
  | otherError
deriving DecidableEq, Repr

/-- A pandas DataFrame: column names in order, and rows of cells.
A well-shaped frame has every row of the same length as `cols`; cell lookup
is positional by column name, defaulting to NaN, which also matches how
`pd.concat` fills columns absent from an input frame. -/
structure Frame where
  cols : List String
  rows : List (List RVal)
deriving DecidableEq, Repr

/-- `pd.DataFrame()`: no columns, no rows. -/
def Frame.empty : Frame := ⟨[], []⟩

/-- `df.empty`: true when either axis has length zero. -/
def Frame.isEmpty (f : Frame) : Bool := f.rows.isEmpty || f.cols.isEmpty

/-- `row[c]`: the cell of `row` under column `c` (first occurrence of the
column label), NaN when the column is absent. -/
def getCell (cols : List String) (row : List RVal) (c : String) : RVal :=
  match cols.indexOf? c with
  | some i => row.getD i .nan
  | none => .nan

/-- Keep the first occurrence of each element (the key-collapsing behaviour of
`drop_duplicates` and of pandas column de-duplication). -/
def dedupKeepFirstAux {α : Type} [DecidableEq α] (seen : List α) : List α → List α
  | [] => []
  | a :: as =>
    if a ∈ seen then dedupKeepFirstAux seen as
    else a :: dedupKeepFirstAux (a :: seen) as

/-- `drop_duplicates` / first-occurrence de-duplication. -/
def dedupKeepFirst {α : Type} [DecidableEq α] (l : List α) : List α :=
  dedupKeepFirstAux [] l

/-- Apply a fallible conversion to every element, stopping at the first
failure — the behaviour of a vectorized pandas operation such as
`astype(int)`, which raises on the first bad cell. -/
def mapExcept {α β : Type} (g : α → Except Exc β) : List α → Except Exc (List β)
  | [] => .ok []
  | a :: as => do
    let b ← g a
    let bs ← mapExcept g as
    return b :: bs

/-- `pd.concat`: columns are unioned in order of first appearance, rows are
concatenated, and cells under a column absent from a given input frame are
filled with NaN. -/
def Frame.concat (fs : List Frame) : Frame :=
  let cols := dedupKeepFirst (fs.flatMap (·.cols))
  ⟨cols, fs.flatMap (fun f => f.rows.map (fun r => cols.map (fun c => getCell f.cols r c)))⟩

/-! ## Column Projector (`set_redcap_columns`) -/

/-- `[col for col in redcap_df.columns if col.endswith(".contactType")]`:
the contact-type columns, in DataFrame column order. -/
def contactTypeCols (cols : List String) : List String :=
  cols.filter (fun c => strEndsWith c ".contactType")

/-- The `email_consent` cell computed for one row: pandas
`is_email.idxmax(axis=1)` yields the first contact-type column (in column
order) whose cell equals `"email"`; the paired `information` column of that
group is read; rows with no match (`not is_email.loc[row].any()`) get NaN. -/
def emailConsent (cols : List String) (row : List RVal) : RVal :=
  match (contactTypeCols cols).find? (fun c => getCell cols row c = .vstr "email") with
  | some c => getCell cols row (strReplace c ".contactType" ".information")
  | none => .nan

/-- `redcap_df.rename(columns={"customId": "mrn"})` applied to the header. -/
def renameCols (cols : List String) : List String :=
  cols.map (fun c => if c = "customId" then "mrn" else c)

/-- `astype(int)` on one cell: integers pass through, numeric strings are
parsed with `int(...)`, anything else (including NaN) raises `ValueError`. -/
def cellToInt : RVal → Option Int
  | .vint n => some n
  | .vstr s => strToInt s
  | .nan => none

/-- One row of the projected batch
`redcap_df[["record_id", "mrn", "email_consent"]]`. -/
structure ProjRow where
  record_id : Int
  mrn : Int
  email_consent : RVal
deriving DecidableEq, Repr

/-- `set_redcap_columns`: compute `email_consent` per row, rename
`customId` to `mrn`, coerce `mrn` with `astype(int)`, insert `record_id`
(a copy of `mrn`) at position 0, select
`["record_id", "mrn", "email_consent"]` and `drop_duplicates`.
Error cases, in source order: `is_email.idxmax(axis=1)` raises `ValueError`
when the frame has rows but no `.contactType` columns; `redcap_df["mrn"]`
raises `KeyError` when no column renames to `mrn`; `astype(int)` raises
`ValueError` on the first non-numeric cell. -/
def set_redcap_columns (f : Frame) : Except Exc (List ProjRow) :=
  if f.rows ≠ [] ∧ contactTypeCols f.cols = [] then .error .valueErrorEmptyIdxmax
  else
    let withEc := f.rows.map (fun r => (r, emailConsent f.cols r))
    let cols2 := renameCols f.cols
    if "mrn" ∉ cols2 then .error .keyError
    else
      match mapExcept (fun p =>
          match cellToInt (getCell cols2 p.1 "mrn") with
          | some n => Except.ok n
          | none => Except.error Exc.valueErrorIntCast) withEc with
      | .error e => .error e
      | .ok mrns =>
        .ok (dedupKeepFirst ((mrns.zip withEc).map (fun q => ProjRow.mk q.1 q.1 q.2.2)))

/-! ## Reconciler (`get_redcap_subjects_to_update`) -/

/-- One row of the `to_update` partition after
`drop(columns=["record_id"]).merge(..., on="mrn", how="left")`:
`record_id` is destination-supplied (NaN for a left row with no match,
possible only outside the mask). -/
structure UpdRow where
  record_id : RVal
  mrn : Int
  email_consent : RVal
deriving DecidableEq, Repr

/-- The final column selection of the `to_update` partition,
`to_update[["record_id", "mrn", "email_consent"]]`. -/
def to_update_columns : List String := ["record_id", "mrn", "email_consent"]

/-- An `UpdRow` as cells in `to_update_columns` order. -/
def UpdRow.cells (r : UpdRow) : List RVal := [r.record_id, .vint r.mrn, r.email_consent]

/-- The destination-supplied `record_id`s paired with a given `mrn` in the
lookup frame's `(mrn, record_id)` rows, in row order — a pandas left merge
joins every matching right row, not just the first. -/
def lookupMatches (pairs : List (RVal × RVal)) (m : Int) : List RVal :=
  (pairs.filter (fun p => p.1 = .vint m)).map (fun p => p.2)

/-- `get_redcap_subjects_to_update`, with the REDCap export
(`fields=mrn,record_id`) passed in as `lookup`:
`mask = df["mrn"].isin(lookup["mrn"])`; `to_update` is the masked rows with
the guessed `record_id` dropped and the destination `record_id` left-joined
by `mrn` (one output row per matching lookup row), re-ordered to
`to_update_columns`; the second component is `df[~mask]`.
Accessing `lookup["mrn"]` or `lookup["record_id"]` raises `KeyError` when
the column is absent (in particular on the empty frame `_fetch_api_data`
returns after a failed call). -/
def get_redcap_subjects_to_update (df : List ProjRow) (lookup : Frame) :
    Except Exc (List UpdRow × List ProjRow) :=
  if "mrn" ∉ lookup.cols then .error .keyError
  else if "record_id" ∉ lookup.cols then .error .keyError
  else
    let pairs := lookup.rows.map
      (fun r => (getCell lookup.cols r "mrn", getCell lookup.cols r "record_id"))
    let mask := fun (r : ProjRow) => decide (RVal.vint r.mrn ∈ pairs.map Prod.fst)
    let to_update := (df.filter mask).flatMap (fun r =>
      match lookupMatches pairs r.mrn with
      | [] => [UpdRow.mk .nan r.mrn r.email_consent]
      | ms => ms.map (fun rid => UpdRow.mk rid r.mrn r.email_consent))
    .ok (to_update, df.filter (fun r => !mask r))

/-! ## Batch Writer (`push_to_redcap`) -/

/-- The wire parameters of one REDCap import call, as the `data` dict built
in `push_to_redcap`; `forceAutoNumber` is `str(not update).lower()`. -/
def redcap_import_data (token payload : String) (update : Bool) : List (String × String) :=
  [("token", token), ("content", "record"), ("action", "import"), ("format", "csv"),
   ("type", "flat"), ("overwriteBehavior", "normal"),
   ("forceAutoNumber", if update then "false" else "true"),
   ("data", payload), ("returnContent", "count"), ("returnFormat", "csv")]

/-- Value of a wire parameter. -/
def wireParam (call : List (String × String)) (k : String) : Option String :=
  (call.find? (fun p => p.1 = k)).map (fun p => p.2)

/-- The outcome of one outbound `requests.post`: either the request raises
(timeout, connection error), or a response with a status code and body
arrives. -/
inductive HttpOutcome where
  | exc : Exc → HttpOutcome
  | resp : Nat → String → HttpOutcome
deriving DecidableEq, Repr

/-- `Response.raise_for_status()`: raises `HTTPError` for a 4xx or 5xx
status, returns normally otherwise. -/
def raise_for_status (status : Nat) : Option Exc :=
  if 400 ≤ status then some .httpError else none

/-- One branch of `push_to_redcap` for a fixed `update` flag: skip silently
when the staging file is missing or empty, otherwise issue exactly one import
call and `raise_for_status` on its response (a raised request exception
propagates).  Returns the calls issued and the exception, if any. -/
def push_one (content : Option String) (token : String) (update : Bool)
    (respond : HttpOutcome) : List (List (String × String)) × Option Exc :=
  match content with
  | none => ([], none)
  | some csv =>
    if csv = "" then ([], none)
    else
      let call := redcap_import_data token csv update
      match respond with
      | .exc e => ([call], some e)
      | .resp status _ => ([call], raise_for_status status)

/-- `push_to_redcap(project_token)` with `update=None`: try
`update=True` (the update partition, from `redcap_update_file`) first, then
`update=False` (the create partition, from `redcap_import_file`); an
exception from the first push propagates and the second is never issued. -/
def push_to_redcap (updContent impContent : Option String) (token : String)
    (respondUpd respondImp : HttpOutcome) : List (List (String × String)) × Option Exc :=
  let first := push_one updContent token true respondUpd
  match first.2 with
  | some e => (first.1, some e)
  | none =>
    let second := push_one impContent token false respondImp
    (first.1 ++ second.1, second.2)

/-! ## API fetch helper (`_fetch_api_data` / `fetch_api_data`) -/

/-- `_fetch_api_data` (index 0, the `fetch_api_data` wrapper used for the
REDCap lookup): inside a catch-all `try`, POST; on a 200 response with a
non-blank body, parse the CSV body (`parse` stands for `pd.read_csv`); on a
blank body, a non-200 status, or ANY raised exception (timeout, connection
error), log and return an empty DataFrame. -/
def fetch_api_data (parse : String → Frame) (r : HttpOutcome) : Frame :=
  match r with
  | .exc _ => Frame.empty
  | .resp status text =>
    if status = 200 then
      if strIsBlank text then Frame.empty else parse text
    else Frame.empty

/-- Modelled from the spec: `Endpoints.Ripple.export_from_ripple` lives in the
secrets module `.ripple_variables`, which is not in the repository; per the
spec's source-export interface (outbound POST per study group returning a flat
CSV-like payload parsed into the SourceRecord shape) and the repository's
API-fetch helper — whose transport handling `request_potential_participants`
relies on when it infers the API status from an empty frame — one export call
yields the parsed frame on a 200 response and an empty frame otherwise. -/
def export_from_ripple (parse : String → Frame) (r : HttpOutcome) : Frame :=
  fetch_api_data parse r

/-! ## Extraction (`request_potential_participants`) -/

/-- `request_potential_participants`, applied to the frames returned by the
per-study export calls: concatenate; raise `NoData` when the result is empty
(the source comments: the API call may have failed or returned no data);
filter on `cv.consent_form == "Send to RedCap"`; raise `NoData` when the
filtered frame is empty. -/
def request_potential_participants (exports : List Frame) : Except Exc Frame :=
  let ripple_df := Frame.concat exports
  if ripple_df.isEmpty then .error .noData
  else if "cv.consent_form" ∉ ripple_df.cols then .error .keyError
  else
    let filtered : Frame := ⟨ripple_df.cols, ripple_df.rows.filter
      (fun r => decide (getCell ripple_df.cols r "cv.consent_form" = .vstr "Send to RedCap"))⟩
    if filtered.isEmpty then .error .noData else .ok filtered

/-! ## Staging files and `prepare_redcap_data` / `prepare_ripple_to_ripple` -/

/-- The destination-side create staging file (`redcap_variables.redcap_import_file`,
a configured path; an opaque name here). -/
def redcap_import_file : String := "redcap_import_file"

/-- The destination-side update staging file (`redcap_variables.redcap_update_file`). -/
def redcap_update_file : String := "redcap_update_file"

/-- `prepare_redcap_data`, with the REDCap lookup frame passed in: project via
`set_redcap_columns`, partition via `get_redcap_subjects_to_update`, and
write each non-empty partition to its staging file.  Returns which of
(update file, import file) were written. -/
def prepare_redcap_data (df : Frame) (lookup : Frame) : Except Exc (Bool × Bool) :=
  match set_redcap_columns df with
  | .error e => .error e
  | .ok proj =>
    match get_redcap_subjects_to_update proj lookup with
    | .error e => .error e
    | .ok parts => .ok (!parts.1.isEmpty, !parts.2.isEmpty)

/-- A decimal digit character. -/
def digitChar (d : Nat) : Char :=
  if d = 0 then '0' else if d = 1 then '1' else if d = 2 then '2' else if d = 3 then '3'
  else if d = 4 then '4' else if d = 5 then '5' else if d = 6 then '6' else if d = 7 then '7'
  else if d = 8 then '8' else '9'

/-- Decimal digits of `n`, least significant first, with fuel. -/
def natDigitsRev : Nat → Nat → List Char
  | 0, _ => []
  | _ + 1, 0 => []
  | fuel + 1, n => digitChar (n % 10) :: natDigitsRev fuel (n / 10)

/-- Decimal rendering of a natural number. -/
def natToStr (n : Nat) : String :=
  if n = 0 then "0" else ⟨(natDigitsRev n n).reverse⟩

/-- `str(...)` rendering of a cell, as an f-string would produce for the
study-group keys of `prepare_ripple_to_ripple`. -/
def rvalText : RVal → String
  | .vstr s => s
  | .vint (.ofNat n) => natToStr n
  | .vint (.negSucc n) => "-" ++ natToStr (n + 1)
  | .nan => "nan"

/-- The directory of `ripple_variables.ripple_import_file` (configured;
opaque here). -/
def ripple_import_dir : String := "ripple_import_dir/"

/-- `str(ripple_import_dir / f"{ripple_study}.xlsx")`. -/
def ripple_staging_path (study : String) : String :=
  ripple_import_dir ++ study ++ ".xlsx"

/-- `prepare_ripple_to_ripple`: select
`["globalId", "cv.consent_form", "importType"]` (`KeyError` when absent), and
for each distinct `importType` value in first-appearance order
(`Series.unique`), write the group's rows — with `cv.consent_form` rewritten
to `"consent_form_created_in_redcap"` — to one staging file per study group.
Returns the `{study: filepath}` mapping. -/
def prepare_ripple_to_ripple (df : Frame) : Except Exc (List (String × String)) :=
  if "globalId" ∉ df.cols then .error .keyError
  else if "cv.consent_form" ∉ df.cols then .error .keyError
  else if "importType" ∉ df.cols then .error .keyError
  else
    let studies := dedupKeepFirst (df.rows.map (fun r => getCell df.cols r "importType"))
    .ok (studies.map (fun s => (rvalText s, ripple_staging_path (rvalText s))))

/-! ## Status Writeback (`set_status_in_ripple`) -/

/-- `set_status_in_ripple` for one study group, with the staged artifact's
contents (`none` = file missing) and the source system's response:
a missing file raises `FileNotFoundError`; an empty frame is a no-op with no
outbound call; otherwise one POST is issued, a raised request exception is
re-raised wrapped as `RequestException`, and a 4xx/5xx response raises
`HTTPError`, which the outer `except RequestException` clause also wraps and
re-raises.  Returns whether a call was issued, and the exception, if any. -/
def set_status_in_ripple (fileContents : Option Frame) (respond : HttpOutcome) :
    Bool × Option Exc :=
  match fileContents with
  | none => (false, some .fileNotFoundError)
  | some f =>
    if f.isEmpty then (false, none)
    else
      match respond with
      | .exc _ => (true, some .requestException)
      | .resp status _ =>
        (true, if 400 ≤ status then some .requestException else none)

/-! ## Cleanup (`cleanup`) -/

/-- `Path.unlink(missing_ok=...)`: removes the file when present; on a missing
file, raises `FileNotFoundError` unless `missing_ok` is true.  The filesystem
is the list of existing paths. -/
def unlink (fs : List String) (p : String) (missing_ok : Bool) :
    List String × Option Exc :=
  if p ∈ fs then (fs.erase p, none)
  else if missing_ok then (fs, none)
  else (fs, some .fileNotFoundError)

/-- The full deletion list of `cleanup(temp_files)`: the two fixed REDCap
staging files, then the per-study temp files. -/
def cleanup_targets (temp_files : List String) : List String :=
  redcap_import_file :: redcap_update_file :: temp_files

/-- Result of running `cleanup`: the remaining filesystem, how many times the
`except FileNotFoundError` handler branch ran, and the exception, if any,
escaping `cleanup`. -/
structure CleanupResult where
  fs : List String
  handlerHits : Nat
  exc : Option Exc
deriving DecidableEq, Repr

/-- The `for filepath in [...]` loop of `cleanup`: each iteration calls
`filepath.unlink(missing_ok=True)` inside `try`, and the
`except FileNotFoundError` handler only logs a warning and continues. -/
def cleanupLoop (fs : List String) : List String → CleanupResult
  | [] => ⟨fs, 0, none⟩
  | p :: ps =>
    match unlink fs p true with
    | (fs', some .fileNotFoundError) =>
      let r := cleanupLoop fs' ps
      ⟨r.fs, r.handlerHits + 1, r.exc⟩
    | (fs', some e) => ⟨fs', 0, some e⟩
    | (fs', none) => cleanupLoop fs' ps

/-- `cleanup(temp_files)` over a filesystem state. -/
def cleanup (fs : List String) (temp_files : List String) : CleanupResult :=
  cleanupLoop fs (cleanup_targets temp_files)

/-! ## Run Orchestrator (`main`) -/

/-- Observable events of one run, in order. -/
inductive Event where
  | extractCall
  | prepareRedcapCall
  | fileCreate : String → Event
  | prepareRippleCall
  | pushCall
  | writebackCall : String → Event
  | cleanupCall : List String → Event
deriving DecidableEq, Repr

/-- The behaviour of each stage of a run, as `main` observes it: the stages
are called in source order and each either returns or raises.  (Stage
granularity matches `main`'s five statements; a stage that raises has not
produced its artifacts, since each stage's failure points precede its
writes.) -/
structure MainEnv where
  extract : Except Exc Frame
  prepRedcap : Frame → Except Exc (Bool × Bool)
  prepRipple : Frame → Except Exc (List (String × String))
  push : Option Exc
  writeback : String → String → Option Exc

/-- The `for ripple_study, ripple_import_file in ripple_import_files.items()`
loop: write back each study in order, stopping at the first exception. -/
def writebackLoop (wb : String → String → Option Exc) :
    List (String × String) → List Event × Option Exc
  | [] => ([], none)
  | sp :: rest =>
    match wb sp.1 sp.2 with
    | some e => ([.writebackCall sp.1], some e)
    | none =>
      let r := writebackLoop wb rest
      (.writebackCall sp.1 :: r.1, r.2)

/-- The `try` block of `main`: extraction, destination staging (which may
write the two fixed staging files), source staging (one file per study
group), push, then per-study write-back.  Returns the event trace, the
`ripple_import_files` dict as of exit (`{}` until `prepare_ripple_to_ripple`
returns), and the exception, if any, leaving the block. -/
def mainTry (env : MainEnv) : List Event × List (String × String) × Option Exc :=
  match env.extract with
  | .error e => ([.extractCall], [], some e)
  | .ok df =>
    match env.prepRedcap df with
    | .error e => ([.extractCall, .prepareRedcapCall], [], some e)
    | .ok written =>
      let tr0 := [Event.extractCall, Event.prepareRedcapCall]
        ++ (if written.1 then [Event.fileCreate redcap_update_file] else [])
        ++ (if written.2 then [Event.fileCreate redcap_import_file] else [])
      match env.prepRipple df with
      | .error e => (tr0 ++ [.prepareRippleCall], [], some e)
      | .ok imports =>
        let tr1 := tr0 ++ [Event.prepareRippleCall]
          ++ imports.map (fun sp => Event.fileCreate sp.2)
        match env.push with
        | some e => (tr1 ++ [.pushCall], imports, some e)
        | none =>
          let wbr := writebackLoop env.writeback imports
          (tr1 ++ [.pushCall] ++ wbr.1, imports, wbr.2)

/-- `main`: run the `try` block; `except NoData: pass` swallows exactly the
`NoData` signal; the `finally` clause always runs
`cleanup(list(ripple_import_files.values()))` before control returns or the
surviving exception propagates. -/
def mainRun (env : MainEnv) : List Event × Option Exc :=
  let r := mainTry env
  (r.1 ++ [.cleanupCall (cleanup_targets (r.2.1.map Prod.snd))],
   match r.2.2 with
   | some .noData => none
   | o => o)

/-- The files a run created, read off its trace. -/
def createdFiles (tr : List Event) : List String :=
  tr.filterMap (fun e => match e with | .fileCreate p => some p | _ => none)

/-- The cleanup invocations in a trace, with their deletion lists. -/
def cleanupCalls (tr : List Event) : List (List String) :=
  tr.filterMap (fun e => match e with | .cleanupCall l => some l | _ => none)

/-! ## Helper lemmas -/

theorem unlink_true_eq (fs : List String) (p : String) :
    unlink fs p true = (fs.erase p, none) := by
  unfold unlink
  split
  · rfl
  · next h => simp [List.erase_of_not_mem h]

theorem cleanupLoop_cons (fs : List String) (p : String) (ps : List String) :
    cleanupLoop fs (p :: ps) = cleanupLoop (fs.erase p) ps := by
  simp only [cleanupLoop, unlink_true_eq]

theorem cleanupLoop_exc_handler (l : List String) :
    ∀ fs, (cleanupLoop fs l).exc = none ∧ (cleanupLoop fs l).handlerHits = 0 := by
  induction l with
  | nil => intro fs; exact ⟨rfl, rfl⟩
  | cons p ps ih => intro fs; rw [cleanupLoop_cons]; exact ih _

theorem cleanupLoop_fs_subset (l : List String) :
    ∀ fs, (cleanupLoop fs l).fs ⊆ fs := by
  induction l with
  | nil => intro fs x hx; exact hx
  | cons p ps ih =>
    intro fs
    rw [cleanupLoop_cons]
    exact (ih _).trans (List.erase_subset _ _)

theorem cleanupLoop_removes (l : List String) :
    ∀ fs, fs.Nodup → ∀ p ∈ l, p ∉ (cleanupLoop fs l).fs := by
  induction l with
  | nil => simp
  | cons q ps ih =>
    intro fs hnd p hp
    rw [cleanupLoop_cons]
    rcases List.mem_cons.mp hp with rfl | hp
    · intro hmem
      exact ((hnd.mem_erase_iff).mp (cleanupLoop_fs_subset ps _ hmem)).1 rfl
    · exact ih _ (hnd.erase q) p hp

theorem writebackLoop_shape (wb : String → String → Option Exc) :
    ∀ l, ∀ a ∈ (writebackLoop wb l).1, ∃ s, a = Event.writebackCall s := by
  intro l
  induction l with
  | nil => intro a ha; cases ha
  | cons sp rest ih =>
    simp only [writebackLoop]
    cases wb sp.1 sp.2 with
    | some e =>
      intro a ha
      rcases List.mem_singleton.mp ha with rfl
      exact ⟨sp.1, rfl⟩
    | none =>
      intro a ha
      rcases List.mem_cons.mp ha with rfl | ha
      · exact ⟨sp.1, rfl⟩
      · exact ih a ha

theorem writebackLoop_events (wb : String → String → Option Exc) (l : List (String × String)) :
    createdFiles (writebackLoop wb l).1 = []
      ∧ cleanupCalls (writebackLoop wb l).1 = [] := by
  constructor
  · rw [createdFiles, List.filterMap_eq_nil_iff]
    intro a ha
    obtain ⟨s, rfl⟩ := writebackLoop_shape wb l a ha
    rfl
  · rw [cleanupCalls, List.filterMap_eq_nil_iff]
    intro a ha
    obtain ⟨s, rfl⟩ := writebackLoop_shape wb l a ha
    rfl

theorem createdFiles_append (a b : List Event) :
    createdFiles (a ++ b) = createdFiles a ++ createdFiles b :=
  List.filterMap_append ..

theorem cleanupCalls_append (a b : List Event) :
    cleanupCalls (a ++ b) = cleanupCalls a ++ cleanupCalls b :=
  List.filterMap_append ..

theorem mainTry_no_cleanup (env : MainEnv) : cleanupCalls (mainTry env).1 = [] := by
  rcases env with ⟨ext, pr, pri, pu, wb⟩
  cases ext with
  | error e => rfl
  | ok df =>
    simp only [mainTry]
    cases pr df with
    | error e => rfl
    | ok written =>
      cases pri df with
      | error e =>
        rcases written with ⟨w1, w2⟩
        cases w1 <;> cases w2 <;> simp [cleanupCalls, cleanupCalls_append]
      | ok imports =>
        rcases written with ⟨w1, w2⟩
        have hwbc := (writebackLoop_events wb imports).2
        have himp : cleanupCalls (imports.map (fun sp => Event.fileCreate sp.2)) = [] := by
          rw [cleanupCalls, List.filterMap_eq_nil_iff]
          intro a ha
          obtain ⟨sp, _, rfl⟩ := List.mem_map.mp ha
          rfl
        cases pu with
        | some e =>
          cases w1 <;> cases w2 <;>
            simp [cleanupCalls, cleanupCalls_append, himp]
        | none =>
          cases w1 <;> cases w2 <;>
            (simp only [cleanupCalls_append, hwbc, himp]
             simp [cleanupCalls])

theorem mem_createdFiles_ifsingle {p q : String} {w : Bool}
    (hp : p ∈ createdFiles (if w then [Event.fileCreate q] else [])) : p = q := by
  cases w <;> simp_all [createdFiles]

theorem mem_createdFiles_map {imports : List (String × String)} {p : String}
    (hp : p ∈ createdFiles (imports.map (fun sp => Event.fileCreate sp.2))) :
    p ∈ imports.map Prod.snd := by
  rw [createdFiles, List.mem_filterMap] at hp
  obtain ⟨a, ha, hm⟩ := hp
  obtain ⟨sp, hsp, rfl⟩ := List.mem_map.mp ha
  simp only [Option.some.injEq] at hm
  subst hm
  exact List.mem_map.mpr ⟨sp, hsp, rfl⟩

theorem mainTry_created (env : MainEnv) :
    ∀ p ∈ createdFiles (mainTry env).1,
      p ∈ cleanup_targets ((mainTry env).2.1.map Prod.snd) := by
  rcases env with ⟨ext, pr, pri, pu, wb⟩
  cases ext with
  | error e => intro p hp; cases hp
  | ok df =>
    simp only [mainTry]
    cases pr df with
    | error e => intro p hp; cases hp
    | ok written =>
      rcases written with ⟨w1, w2⟩
      cases pri df with
      | error e =>
        intro p hp
        simp only [createdFiles_append, List.mem_append] at hp
        rcases hp with ((hp | hp) | hp) | hp
        · simp [createdFiles] at hp
        · rcases mem_createdFiles_ifsingle hp with rfl; simp [cleanup_targets]
        · rcases mem_createdFiles_ifsingle hp with rfl; simp [cleanup_targets]
        · simp [createdFiles] at hp
      | ok imports =>
        have hmain : ∀ p : String, p = redcap_update_file ∨ p = redcap_import_file
            ∨ p ∈ imports.map Prod.snd → p ∈ cleanup_targets (imports.map Prod.snd) := by
          intro p hp
          rcases hp with rfl | rfl | hp
          · simp [cleanup_targets]
          · simp [cleanup_targets]
          · simp [cleanup_targets, hp]
        cases pu with
        | some e =>
          intro p hp
          simp only [createdFiles_append, List.mem_append] at hp
          apply hmain p
          rcases hp with ((((hp | hp) | hp) | hp) | hp) | hp
          · simp [createdFiles] at hp
          · exact Or.inl (mem_createdFiles_ifsingle hp)
          · exact Or.inr (Or.inl (mem_createdFiles_ifsingle hp))
          · simp [createdFiles] at hp
          · exact Or.inr (Or.inr (mem_createdFiles_map hp))
          · simp [createdFiles] at hp
        | none =>
          intro p hp
          simp only [createdFiles_append, List.mem_append] at hp
          apply hmain p
          rcases hp with (((((hp | hp) | hp) | hp) | hp) | hp) | hp
          · simp [createdFiles] at hp
          · exact Or.inl (mem_createdFiles_ifsingle hp)
          · exact Or.inr (Or.inl (mem_createdFiles_ifsingle hp))
          · simp [createdFiles] at hp
          · exact Or.inr (Or.inr (mem_createdFiles_map hp))
          · simp [createdFiles] at hp
          · rw [(writebackLoop_events wb imports).1] at hp
            cases hp

/-! ## Claim theorems -/

/-- **C9**: for every run — normal success, the `NoData` short-circuit, or a
fatal error raised at any stage — the cleanup phase executes exactly once, as
the final action before control returns or the error propagates, and its
deletion list covers every transient artifact file the run created (the two
destination-side staging files and the per-study source-side staging files);
running the deletion over any duplicate-free filesystem removes every file on
the list. -/
theorem c9_cleanup_always_runs :
    (∀ env : MainEnv,
        cleanupCalls (mainRun env).1
            = [cleanup_targets ((mainTry env).2.1.map Prod.snd)]
        ∧ (mainRun env).1.getLast?
            = some (.cleanupCall (cleanup_targets ((mainTry env).2.1.map Prod.snd)))
        ∧ ∀ p ∈ createdFiles (mainRun env).1,
            p ∈ cleanup_targets ((mainTry env).2.1.map Prod.snd))
    ∧ (∀ fs temps : List String, fs.Nodup →
        ∀ p ∈ cleanup_targets temps, p ∉ (cleanup fs temps).fs) := by
  constructor
  · intro env
    refine ⟨?_, ?_, ?_⟩
    · rw [mainRun, cleanupCalls_append, mainTry_no_cleanup]
      rfl
    · exact List.getLast?_concat _
    · intro p hp
      rw [mainRun, createdFiles_append] at hp
      rcases List.mem_append.mp hp with hp | hp
      · exact mainTry_created env p hp
      · simp [createdFiles] at hp
  · intro fs temps hnd p hp
    exact cleanupLoop_removes _ fs hnd p hp

/-- Witness for C9 at a concrete run and a concrete filesystem. -/
theorem c9_cleanup_always_runs_witness :
    cleanupCalls (mainRun ⟨.error .noData, fun _ => .ok (false, false),
        fun _ => .ok [], none, fun _ _ => none⟩).1 = [cleanup_targets []]
    ∧ List.Nodup [redcap_import_file, "other_file"]
    ∧ redcap_import_file ∈ cleanup_targets ["other_file"]
    ∧ redcap_import_file ∉ (cleanup [redcap_import_file, "other_file"] ["other_file"]).fs :=
  ⟨(c9_cleanup_always_runs.1 ⟨.error .noData, fun _ => .ok (false, false),
      fun _ => .ok [], none, fun _ _ => none⟩).1,
   by decide, by decide,
   c9_cleanup_always_runs.2 [redcap_import_file, "other_file"] ["other_file"]
     (by decide) redcap_import_file (by decide)⟩

/-- **C10**: `cleanup` completes normally on every filesystem state and
temp-file list — each deletion uses `missing_ok` semantics, so the
`except FileNotFoundError` handler branch never runs (`handlerHits = 0`), no
exception escapes `cleanup`, and `unlink(missing_ok=True)` returns normally
whether or not the file exists. -/
theorem c10_cleanup_missing_ok (fs temp_files : List String) :
    (cleanup fs temp_files).exc = none
    ∧ (cleanup fs temp_files).handlerHits = 0
    ∧ ∀ p, unlink fs p true = (fs.erase p, none) :=
  ⟨(cleanupLoop_exc_handler _ fs).1, (cleanupLoop_exc_handler _ fs).2,
   fun p => unlink_true_eq fs p⟩

theorem request_noData (exports : List Frame)
    (h : (Frame.concat exports).isEmpty = true
      ∨ ("cv.consent_form" ∈ (Frame.concat exports).cols
          ∧ ∀ r ∈ (Frame.concat exports).rows,
              getCell (Frame.concat exports).cols r "cv.consent_form"
                ≠ .vstr "Send to RedCap")) :
    request_potential_participants exports = .error .noData := by
  rcases h with h | ⟨hc, hall⟩
  · simp [request_potential_participants, h]
  · by_cases hemp : (Frame.concat exports).isEmpty
    · simp [request_potential_participants, hemp]
    · have hfil : (Frame.concat exports).rows.filter
          (fun r => decide (getCell (Frame.concat exports).cols r "cv.consent_form"
            = RVal.vstr "Send to RedCap")) = [] := by
        rw [List.filter_eq_nil_iff]
        intro r hr
        simpa using hall r hr
      simp [request_potential_participants, hemp, hc, hfil, Frame.isEmpty]

/-- **C8**: a run whose extraction yields zero rows, or only rows failing the
`"Send to RedCap"` consent filter, raises the distinguishable `NoData` signal,
which `main` alone swallows: the run completes without error, never calls the
reconciler/staging, the push, or the write-back, and runs cleanup exactly
once; any exception other than `NoData` escaping the `try` block is re-raised
by the run. -/
theorem c8_no_data_short_circuit :
    (∀ (exports : List Frame) (env : MainEnv),
        ((Frame.concat exports).isEmpty = true
          ∨ ("cv.consent_form" ∈ (Frame.concat exports).cols
              ∧ ∀ r ∈ (Frame.concat exports).rows,
                  getCell (Frame.concat exports).cols r "cv.consent_form"
                    ≠ .vstr "Send to RedCap"))
        → env.extract = request_potential_participants exports
        → (mainRun env).2 = none
          ∧ cleanupCalls (mainRun env).1 = [cleanup_targets []]
          ∧ Event.prepareRedcapCall ∉ (mainRun env).1
          ∧ Event.prepareRippleCall ∉ (mainRun env).1
          ∧ Event.pushCall ∉ (mainRun env).1
          ∧ ∀ s, Event.writebackCall s ∉ (mainRun env).1)
    ∧ (∀ (env : MainEnv) (e : Exc), (mainTry env).2.2 = some e → e ≠ .noData
        → (mainRun env).2 = some e) := by
  constructor
  · intro exports env hcond hext
    have hreq := request_noData exports hcond
    rcases env with ⟨ext, pr, pri, pu, wb⟩
    rw [hreq] at hext
    simp only at hext
    subst hext
    refine ⟨rfl, rfl, ?_, ?_, ?_, ?_⟩ <;> simp [mainRun, mainTry, cleanup_targets]
  · intro env e hexc hne
    simp only [mainRun]
    rw [hexc]
    cases e with
    | noData => exact absurd rfl hne
    | _ => rfl

/-- Witness for C8: a run over an all-empty export completes without error
and without a push; a `KeyError` escaping the `try` block is re-raised. -/
theorem c8_no_data_short_circuit_witness :
    (mainRun ⟨request_potential_participants [Frame.empty],
        fun _ => Except.ok (false, false), fun _ => Except.ok [],
        none, fun _ _ => none⟩).2 = none
    ∧ (mainRun ⟨Except.error Exc.keyError, fun _ => Except.ok (false, false),
        fun _ => Except.ok [], none, fun _ _ => none⟩).2 = some .keyError :=
  ⟨(c8_no_data_short_circuit.1 [Frame.empty] _ (Or.inl (by decide)) rfl).1,
   c8_no_data_short_circuit.2 _ .keyError rfl (by decide)⟩

/-- **C7**: when both staging files are present and non-empty (and the first
push succeeds, since an exception would abort the run), `push_to_redcap`
issues exactly two import calls, the update-mode call before the create-mode
call; `forceAutoNumber` is the string `"false"` on the update call and
`"true"` on the create call; and for a fixed payload the two modes' wire
dictionaries agree on every parameter once `forceAutoNumber` is masked, so
that flag is the single mode-distinguishing parameter. -/
theorem c7_two_import_calls :
    (∀ (uc ic token : String) (s1 s2 : Nat) (t1 t2 : String),
        uc ≠ "" → ic ≠ "" → raise_for_status s1 = none →
        (push_to_redcap (some uc) (some ic) token (.resp s1 t1) (.resp s2 t2)).1
          = [redcap_import_data token uc true, redcap_import_data token ic false])
    ∧ (∀ token payload : String,
        wireParam (redcap_import_data token payload true) "forceAutoNumber" = some "false"
        ∧ wireParam (redcap_import_data token payload false) "forceAutoNumber" = some "true")
    ∧ (∀ token payload : String,
        (redcap_import_data token payload true).map
            (fun p => if p.1 = "forceAutoNumber" then (p.1, "") else p)
          = (redcap_import_data token payload false).map
            (fun p => if p.1 = "forceAutoNumber" then (p.1, "") else p)) := by
  refine ⟨?_, fun token payload => ⟨rfl, rfl⟩, fun token payload => rfl⟩
  intro uc ic token s1 s2 t1 t2 huc hic hs
  simp [push_to_redcap, push_one, huc, hic, hs]

/-- Witness for C7 at concrete staging contents and responses. -/
theorem c7_two_import_calls_witness :
    (push_to_redcap (some "u,1") (some "i,2") "tok" (.resp 200 "1") (.resp 200 "1")).1
      = [redcap_import_data "tok" "u,1" true, redcap_import_data "tok" "i,2" false] :=
  c7_two_import_calls.1 "u,1" "i,2" "tok" 200 200 "1" "1"
    (by decide) (by decide) (by decide)

theorem find?_append_first {α : Type} (p : α → Bool) (l1 l2 : List α) (a : α)
    (h1 : ∀ b ∈ l1, p b = false) (ha : p a = true) :
    (l1 ++ a :: l2).find? p = some a := by
  induction l1 with
  | nil => simp [List.find?, ha]
  | cons b bs ih =>
    have hb := h1 b (List.mem_cons_self ..)
    simp only [List.cons_append, List.find?, hb]
    exact ih (fun x hx => h1 x (List.mem_cons_of_mem _ hx))

theorem mapExcept_ok_of_forall {α β : Type} (g : α → Except Exc β) :
    ∀ l : List α, (∀ a ∈ l, ∃ b, g a = .ok b) → ∃ bs, mapExcept g l = .ok bs := by
  intro l
  induction l with
  | nil => intro _; exact ⟨[], rfl⟩
  | cons a as ih =>
    intro h
    obtain ⟨b, hb⟩ := h a (List.mem_cons_self ..)
    obtain ⟨bs, hbs⟩ := ih (fun x hx => h x (List.mem_cons_of_mem _ hx))
    refine ⟨b :: bs, ?_⟩
    simp only [mapExcept, hb, hbs]
    rfl

theorem mapExcept_error_of_mem {α β : Type} (g : α → Except Exc β) (e0 : Exc)
    (hall : ∀ a, g a = .error e0 ∨ ∃ b, g a = .ok b) :
    ∀ l : List α, (∃ a ∈ l, g a = .error e0) → mapExcept g l = .error e0 := by
  intro l
  induction l with
  | nil => rintro ⟨a, ha, _⟩; cases ha
  | cons a as ih =>
    rintro ⟨x, hx, hgx⟩
    rcases hall a with ha | ⟨b, hb⟩
    · simp only [mapExcept, ha]
      rfl
    · rcases List.mem_cons.mp hx with rfl | hx
      · rw [hb] at hgx; cases hgx
      · simp only [mapExcept, hb, ih ⟨x, hx, hgx⟩]
        rfl

/-- **C3 (amended)**: the contact extraction returns the `information` value
paired with the first contact-type column, in batch column order, whose cell
equals `"email"` — which is the lowest-indexed group whenever the batch's
columns appear in ascending group-index order, as in the spec's example
(groups 1=phone/555-0101, 2=email/a@x.com, 3=email/b@x.com yields
`"a@x.com"`). -/
theorem c3_extraction_precedence :
    (∀ (cols : List String) (row : List RVal) (pre post : List String) (c : String),
        contactTypeCols cols = pre ++ c :: post
        → (∀ c' ∈ pre, getCell cols row c' ≠ .vstr "email")
        → getCell cols row c = .vstr "email"
        → emailConsent cols row
            = getCell cols row (strReplace c ".contactType" ".information"))
    ∧ emailConsent
        ["customId", "contact.1.infos.1.contactType", "contact.1.infos.1.information",
         "contact.2.infos.1.contactType", "contact.2.infos.1.information",
         "contact.3.infos.1.contactType", "contact.3.infos.1.information"]
        [.vint 7, .vstr "phone", .vstr "555-0101", .vstr "email", .vstr "a@x.com",
         .vstr "email", .vstr "b@x.com"]
      = .vstr "a@x.com" := by
  constructor
  · intro cols row pre post c hsplit hpre hc
    rw [emailConsent, hsplit, find?_append_first _ pre post c
      (fun b hb => by simpa using hpre b hb) (by simpa using hc)]
  · decide

/-- Witness for C3 at the spec's ordered example plus a two-group record. -/
theorem c3_extraction_precedence_witness :
    emailConsent
      ["customId", "contact.1.infos.1.contactType", "contact.1.infos.1.information",
       "contact.2.infos.1.contactType", "contact.2.infos.1.information"]
      [.vint 7, .vstr "phone", .vstr "555-0101", .vstr "email", .vstr "a@x.com"]
      = getCell
        ["customId", "contact.1.infos.1.contactType", "contact.1.infos.1.information",
         "contact.2.infos.1.contactType", "contact.2.infos.1.information"]
        [.vint 7, .vstr "phone", .vstr "555-0101", .vstr "email", .vstr "a@x.com"]
        (strReplace "contact.2.infos.1.contactType" ".contactType" ".information") :=
  c3_extraction_precedence.1
    ["customId", "contact.1.infos.1.contactType", "contact.1.infos.1.information",
     "contact.2.infos.1.contactType", "contact.2.infos.1.information"]
    [.vint 7, .vstr "phone", .vstr "555-0101", .vstr "email", .vstr "a@x.com"]
    ["contact.1.infos.1.contactType"] [] "contact.2.infos.1.contactType"
    (by decide) (by decide) (by decide)

/-- Counterexample to **C3** as stated: in a batch whose contact-group columns
appear out of index order (group 2's columns before group 1's), both groups
are typed `"email"`, group 1 (the lowest-indexed) holds `"a@x.com"`, yet the
extraction returns group 2's `"b@x.com"` — discovery order, not ascending
group-index order, wins. -/
theorem c3_counterexample :
    emailConsent
      ["customId", "contact.2.infos.1.contactType", "contact.2.infos.1.information",
       "contact.1.infos.1.contactType", "contact.1.infos.1.information"]
      [.vint 7, .vstr "email", .vstr "b@x.com", .vstr "email", .vstr "a@x.com"]
      = .vstr "b@x.com"
    ∧ emailConsent
      ["customId", "contact.2.infos.1.contactType", "contact.2.infos.1.information",
       "contact.1.infos.1.contactType", "contact.1.infos.1.information"]
      [.vint 7, .vstr "email", .vstr "b@x.com", .vstr "email", .vstr "a@x.com"]
      ≠ .vstr "a@x.com" := by decide

/-- **C4 (amended)**: a record with zero `"email"`-typed contact groups gets
an absent (NaN) `emailConsent`, and — provided the batch's schema has at least
one `.contactType` column — such records never by themselves make projection
fail: projection succeeds whenever the join-key guard passes, regardless of
whether any row matches.  (A batch with rows but no `.contactType` columns at
all instead makes `idxmax` raise; see the counterexample.) -/
theorem c4_no_match_absent :
    (∀ (cols : List String) (row : List RVal),
        (∀ c ∈ contactTypeCols cols, getCell cols row c ≠ .vstr "email")
        → emailConsent cols row = .nan)
    ∧ (∀ f : Frame, contactTypeCols f.cols ≠ []
        → "mrn" ∈ renameCols f.cols
        → (∀ r ∈ f.rows, cellToInt (getCell (renameCols f.cols) r "mrn") ≠ none)
        → ∃ l, set_redcap_columns f = .ok l) := by
  constructor
  · intro cols row hnone
    rw [emailConsent, List.find?_eq_none.mpr]
    intro c hc
    simpa using hnone c hc
  · intro f htc hmrn hall
    rw [set_redcap_columns, if_neg (fun h => htc h.2), if_neg (fun h => h hmrn)]
    obtain ⟨bs, hbs⟩ := mapExcept_ok_of_forall
      (fun p => match cellToInt (getCell (renameCols f.cols) p.1 "mrn") with
        | some n => Except.ok n
        | none => Except.error Exc.valueErrorIntCast)
      (f.rows.map (fun r => (r, emailConsent f.cols r)))
      (by
        intro p hp
        obtain ⟨r, hr, rfl⟩ := List.mem_map.mp hp
        cases hopt : cellToInt (getCell (renameCols f.cols) r "mrn") with
        | none => exact absurd hopt (hall r hr)
        | some n => exact ⟨n, by simp [hopt]⟩)
    rw [hbs]
    exact ⟨_, rfl⟩

/-- Witness for C4 at a concrete no-email record. -/
theorem c4_no_match_absent_witness :
    emailConsent ["customId", "contact.1.infos.1.contactType",
        "contact.1.infos.1.information"]
      [.vstr "12345", .vstr "phone", .vstr "555-0101"] = .nan
    ∧ ∃ l, set_redcap_columns
        ⟨["customId", "contact.1.infos.1.contactType", "contact.1.infos.1.information"],
         [[.vstr "12345", .vstr "phone", .vstr "555-0101"]]⟩ = .ok l :=
  ⟨c4_no_match_absent.1 _ _ (by decide),
   c4_no_match_absent.2
     ⟨["customId", "contact.1.infos.1.contactType", "contact.1.infos.1.information"],
      [[.vstr "12345", .vstr "phone", .vstr "555-0101"]]⟩
     (by decide) (by decide) (by decide)⟩

/-- Counterexample to **C4** as stated: a one-row batch whose schema contains
no `.contactType` columns at all does not project successfully — the
`is_email.idxmax(axis=1)` step raises `ValueError` on the zero-column
selection, so the absence of contact columns is an error, contradicting the
claim's parenthetical. -/
theorem c4_counterexample :
    set_redcap_columns ⟨["customId"], [[.vstr "12345"]]⟩
      = .error .valueErrorEmptyIdxmax := by decide

/-- **C5**: `set_redcap_columns` coerces the renamed join-key column to
integer: any batch containing a non-numeric `mrn` cell (given the schema
guards that precede the cast in source order) fails with the
`astype` `ValueError`, which a run surfaces to the caller rather than
swallowing; a numeric-as-string cell such as `"12345"` succeeds and yields
the integer `12345` in both `record_id` and `mrn`. -/
theorem c5_mrn_coercion :
    (∀ f : Frame, ¬(f.rows ≠ [] ∧ contactTypeCols f.cols = [])
        → "mrn" ∈ renameCols f.cols
        → (∃ r ∈ f.rows, cellToInt (getCell (renameCols f.cols) r "mrn") = none)
        → set_redcap_columns f = .error .valueErrorIntCast)
    ∧ (∀ (cols : List String) (row : List RVal) (s : String) (n : Int),
        contactTypeCols cols ≠ []
        → "mrn" ∈ renameCols cols
        → getCell (renameCols cols) row "mrn" = .vstr s
        → strToInt s = some n
        → set_redcap_columns ⟨cols, [row]⟩
            = .ok [⟨n, n, emailConsent cols row⟩])
    ∧ strToInt "12345" = some 12345
    ∧ (∀ (df lookup : Frame) (pri : Frame → Except Exc (List (String × String)))
          (pu : Option Exc) (wb : String → String → Option Exc),
        set_redcap_columns df = .error .valueErrorIntCast
        → (mainRun ⟨.ok df, fun d => prepare_redcap_data d lookup, pri, pu, wb⟩).2
            = some .valueErrorIntCast) := by
  refine ⟨?_, ?_, by decide, ?_⟩
  · intro f hguard hmrn hex
    obtain ⟨r, hr, hbad⟩ := hex
    rw [set_redcap_columns, if_neg hguard, if_neg (fun h => h hmrn)]
    have hmap := mapExcept_error_of_mem
      (fun p => match cellToInt (getCell (renameCols f.cols) p.1 "mrn") with
        | some n => Except.ok n
        | none => Except.error Exc.valueErrorIntCast)
      .valueErrorIntCast
      (by
        intro p
        cases hp : cellToInt (getCell (renameCols f.cols) p.1 "mrn") with
        | none => exact Or.inl (by simp [hp])
        | some n => exact Or.inr ⟨n, by simp [hp]⟩)
      (f.rows.map (fun r => (r, emailConsent f.cols r)))
      ⟨(r, emailConsent f.cols r), List.mem_map.mpr ⟨r, hr, rfl⟩, by simp [hbad]⟩
    rw [hmap]
  · intro cols row s n htc hmrn hcell hs
    have h1 : ¬((Frame.mk cols [row]).rows ≠ []
        ∧ contactTypeCols (Frame.mk cols [row]).cols = []) := fun h => htc h.2
    have h2 : ¬("mrn" ∉ renameCols (Frame.mk cols [row]).cols) := fun h => h hmrn
    rw [set_redcap_columns, if_neg h1, if_neg h2]
    have hconv : mapExcept (fun p =>
        match cellToInt (getCell (renameCols cols) p.1 "mrn") with
        | some n => Except.ok n
        | none => Except.error Exc.valueErrorIntCast)
        ((Frame.mk cols [row]).rows.map
          (fun r => (r, emailConsent (Frame.mk cols [row]).cols r))) = .ok [n] := by
      simp only [List.map, mapExcept, hcell, cellToInt, hs]
      rfl
    rw [hconv]
    simp [dedupKeepFirst, dedupKeepFirstAux]
  · intro df lookup pri pu wb herr
    have hprep : prepare_redcap_data df lookup = .error .valueErrorIntCast := by
      rw [prepare_redcap_data, herr]
    simp [mainRun, mainTry, hprep]

/-- Witness for C5 at concrete one-row batches: a non-numeric `customId`
fails the cast, and the numeric string `"12345"` yields integer 12345. -/
theorem c5_mrn_coercion_witness :
    set_redcap_columns
        ⟨["customId", "contact.1.infos.1.contactType", "contact.1.infos.1.information"],
         [[.vstr "12x45", .vstr "email", .vstr "a@x.com"]]⟩
      = .error .valueErrorIntCast
    ∧ set_redcap_columns
        ⟨["customId", "contact.1.infos.1.contactType", "contact.1.infos.1.information"],
         [[.vstr "12345", .vstr "email", .vstr "a@x.com"]]⟩
      = .ok [⟨12345, 12345, emailConsent
          ["customId", "contact.1.infos.1.contactType", "contact.1.infos.1.information"]
          [.vstr "12345", .vstr "email", .vstr "a@x.com"]⟩] :=
  ⟨c5_mrn_coercion.1
     ⟨["customId", "contact.1.infos.1.contactType", "contact.1.infos.1.information"],
      [[.vstr "12x45", .vstr "email", .vstr "a@x.com"]]⟩
     (by decide) (by decide)
     ⟨[.vstr "12x45", .vstr "email", .vstr "a@x.com"], by decide, by decide⟩,
   c5_mrn_coercion.2.1
     ["customId", "contact.1.infos.1.contactType", "contact.1.infos.1.information"]
     [.vstr "12345", .vstr "email", .vstr "a@x.com"] "12345" 12345
     (by decide) (by decide) (by decide) (by decide)⟩

/-- A well-formed destination lookup frame: columns `mrn, record_id`, one row
per `(mrn, record_id)` entry, as the REDCap export returns. -/
def mkLookup (entries : List (Int × Int)) : Frame :=
  ⟨["mrn", "record_id"], entries.map (fun p => [.vint p.1, .vint p.2])⟩

theorem mkLookup_pairs (entries : List (Int × Int)) :
    (mkLookup entries).rows.map (fun r =>
      (getCell (mkLookup entries).cols r "mrn",
       getCell (mkLookup entries).cols r "record_id"))
    = entries.map (fun p => (RVal.vint p.1, RVal.vint p.2)) := by
  rw [mkLookup, List.map_map]
  rfl

theorem lookupMatches_not_mem (m : Int) :
    ∀ entries : List (Int × Int), m ∉ entries.map Prod.fst →
      lookupMatches (entries.map (fun p => (RVal.vint p.1, RVal.vint p.2))) m = [] := by
  intro entries
  induction entries with
  | nil => intro _; rfl
  | cons a as ih =>
    intro h
    simp only [List.map_cons, List.mem_cons, not_or] at h
    obtain ⟨h1, h2⟩ := h
    have hpa : (decide ((RVal.vint a.1, RVal.vint a.2).1 = RVal.vint m)) = false := by
      simp only [decide_eq_false_iff_not]
      intro he
      injection he with h'
      exact h1 h'.symm
    simp only [lookupMatches, List.map_cons, List.filter_cons, hpa, Bool.false_eq_true,
      if_false]
    exact ih h2

theorem lookupMatches_unique (m rid : Int) :
    ∀ entries : List (Int × Int), (entries.map Prod.fst).Nodup → (m, rid) ∈ entries →
      lookupMatches (entries.map (fun p => (RVal.vint p.1, RVal.vint p.2))) m
        = [RVal.vint rid] := by
  intro entries
  induction entries with
  | nil => intro _ h; cases h
  | cons a as ih =>
    intro hnd hmem
    simp only [List.map_cons, List.nodup_cons] at hnd
    obtain ⟨hna, hnd'⟩ := hnd
    rcases List.mem_cons.mp hmem with rfl | hmem
    · simp only [lookupMatches, List.map_cons, List.filter_cons]
      rw [if_pos (by simp), List.map_cons]
      have := lookupMatches_not_mem m as hna
      rw [lookupMatches] at this
      rw [this]
    · have hm : m ∈ as.map Prod.fst :=
        List.mem_map.mpr ⟨(m, rid), hmem, rfl⟩
      have hpa : (decide ((RVal.vint a.1, RVal.vint a.2).1 = RVal.vint m)) = false := by
        simp only [decide_eq_false_iff_not]
        intro he
        injection he with h'
        exact hna (h' ▸ hm)
      simp only [lookupMatches, List.map_cons, List.filter_cons, hpa, Bool.false_eq_true,
        if_false]
      exact ih hnd' hmem

theorem mask_mkLookup (entries : List (Int × Int)) (r : ProjRow) :
    (decide (RVal.vint r.mrn
      ∈ (entries.map (fun p => (RVal.vint p.1, RVal.vint p.2))).map Prod.fst))
    = decide (r.mrn ∈ entries.map Prod.fst) := by
  rw [decide_eq_decide, List.map_map]
  constructor
  · intro h
    obtain ⟨p, hp, he⟩ := List.mem_map.mp h
    injection he with h'
    exact List.mem_map.mpr ⟨p, hp, h'⟩
  · intro h
    obtain ⟨p, hp, he⟩ := List.mem_map.mp h
    exact List.mem_map.mpr ⟨p, hp, by simp [he]⟩

theorem get_subjects_mkLookup (df : List ProjRow) (entries : List (Int × Int)) :
    get_redcap_subjects_to_update df (mkLookup entries)
    = .ok ((df.filter (fun r => decide (r.mrn ∈ entries.map Prod.fst))).flatMap (fun r =>
        (match lookupMatches (entries.map (fun p => (RVal.vint p.1, RVal.vint p.2)))
            r.mrn with
        | [] => [UpdRow.mk .nan r.mrn r.email_consent]
        | ms => ms.map (fun rid => UpdRow.mk rid r.mrn r.email_consent))),
      df.filter (fun r => !decide (r.mrn ∈ entries.map Prod.fst))) := by
  rw [get_redcap_subjects_to_update, if_neg (by simp [mkLookup]),
    if_neg (by simp [mkLookup]), mkLookup_pairs]
  simp only [mask_mkLookup]

theorem flatMap_map_single {α β γ : Type} (g : α → List β) (h : β → γ) (k : α → γ) :
    ∀ l : List α, (∀ a ∈ l, (g a).map h = [k a]) → (l.flatMap g).map h = l.map k := by
  intro l
  induction l with
  | nil => intro _; rfl
  | cons a as ih =>
    intro hg
    rw [List.flatMap_cons, List.map_append, hg a (List.mem_cons_self ..),
      ih (fun x hx => hg x (List.mem_cons_of_mem _ hx))]
    rfl

/-- **C2 (amended)**: when the destination mapping is `mrn`-unique, the
reconciler's two partitions together carry exactly the input's multiset of
`mrn` values, no `mrn` appears in both, and `mrn`-uniqueness of the input is
preserved by both partitions.  (With duplicate `mrn` entries in the mapping,
the left merge joins every matching entry — not just the first — so coverage
and uniqueness fail; see the counterexample.) -/
theorem c2_partition_amended (entries : List (Int × Int)) (df : List ProjRow)
    (hnd : (entries.map Prod.fst).Nodup) :
    ∃ upd crt, get_redcap_subjects_to_update df (mkLookup entries) = .ok (upd, crt)
    ∧ (upd.map (fun u => u.mrn) ++ crt.map (fun r => r.mrn)).Perm
        (df.map (fun r => r.mrn))
    ∧ (∀ m, m ∈ upd.map (fun u => u.mrn) → m ∉ crt.map (fun r => r.mrn))
    ∧ ((df.map (fun r => r.mrn)).Nodup →
        (upd.map (fun u => u.mrn)).Nodup ∧ (crt.map (fun r => r.mrn)).Nodup) := by
  have hupd : ((df.filter (fun r => decide (r.mrn ∈ entries.map Prod.fst))).flatMap
      (fun r =>
        (match lookupMatches (entries.map (fun p => (RVal.vint p.1, RVal.vint p.2)))
            r.mrn with
        | [] => [UpdRow.mk .nan r.mrn r.email_consent]
        | ms => ms.map (fun rid => UpdRow.mk rid r.mrn r.email_consent)))).map
        (fun u => u.mrn)
      = (df.filter (fun r => decide (r.mrn ∈ entries.map Prod.fst))).map
        (fun r => r.mrn) := by
    apply flatMap_map_single
    intro r hr
    have hkey : r.mrn ∈ entries.map Prod.fst := by
      simpa using (List.mem_filter.mp hr).2
    obtain ⟨p, hp, hp1⟩ := List.mem_map.mp hkey
    have hpm : (r.mrn, p.2) ∈ entries := by
      rw [← hp1]
      exact hp
    rw [lookupMatches_unique r.mrn p.2 entries hnd hpm]
    rfl
  refine ⟨_, _, get_subjects_mkLookup df entries, ?_, ?_, ?_⟩
  · rw [hupd, ← List.map_append]
    exact (List.filter_append_perm _ df).map _
  · intro m hm hm'
    rw [hupd] at hm
    obtain ⟨r, hr, he⟩ := List.mem_map.mp hm
    obtain ⟨r', hr', he'⟩ := List.mem_map.mp hm'
    have h1 : r.mrn ∈ entries.map Prod.fst := by
      simpa using (List.mem_filter.mp hr).2
    have h2 : r'.mrn ∉ entries.map Prod.fst := by
      simpa using (List.mem_filter.mp hr').2
    rw [he] at h1
    rw [he'] at h2
    exact h2 h1
  · intro hdf
    constructor
    · rw [hupd]
      exact List.Nodup.sublist ((List.filter_sublist df).map _) hdf
    · exact List.Nodup.sublist ((List.filter_sublist df).map _) hdf

/-- Witness for C2 at the spec's end-to-end inputs: `mrn` 12345 known to the
destination as `record_id` 1, `mrn` 99001 unknown. -/
theorem c2_partition_amended_witness :
    ∃ upd crt, get_redcap_subjects_to_update
        [⟨12345, 12345, .nan⟩, ⟨99001, 99001, .nan⟩] (mkLookup [(12345, 1)])
      = .ok (upd, crt)
    ∧ (upd.map (fun u => u.mrn) ++ crt.map (fun r => r.mrn)).Perm
        (([⟨12345, 12345, .nan⟩, ⟨99001, 99001, .nan⟩] : List ProjRow).map
          (fun r => r.mrn))
    ∧ (∀ m, m ∈ upd.map (fun u => u.mrn) → m ∉ crt.map (fun r => r.mrn))
    ∧ ((([⟨12345, 12345, .nan⟩, ⟨99001, 99001, .nan⟩] : List ProjRow).map
          (fun r => r.mrn)).Nodup →
        (upd.map (fun u => u.mrn)).Nodup ∧ (crt.map (fun r => r.mrn)).Nodup) :=
  c2_partition_amended [(12345, 1)] [⟨12345, 12345, .nan⟩, ⟨99001, 99001, .nan⟩]
    (by decide)

/-- Counterexample to **C2** as stated: with duplicate mapping entries
`(5,1)` and `(5,2)` and the single input record `mrn=5`, the update partition
holds TWO rows — the left merge joins every matching mapping entry, not the
first — so the output `mrn` multiset `[5, 5]` differs from the input's `[5]`
and the update partition is not `mrn`-unique. -/
theorem c2_counterexample :
    get_redcap_subjects_to_update [⟨5, 5, .nan⟩] (mkLookup [(5, 1), (5, 2)])
      = .ok ([⟨.vint 1, 5, .nan⟩, ⟨.vint 2, 5, .nan⟩], [])
    ∧ ¬ ((([⟨.vint 1, 5, .nan⟩, ⟨.vint 2, 5, .nan⟩] : List UpdRow).map (fun u => u.mrn)
          ++ (([] : List ProjRow)).map (fun r => r.mrn)).Perm
        (([⟨5, 5, .nan⟩] : List ProjRow).map (fun r => r.mrn)))
    ∧ ¬ (([⟨.vint 1, 5, .nan⟩, ⟨.vint 2, 5, .nan⟩] : List UpdRow).map
          (fun u => u.mrn)).Nodup := by
  refine ⟨by decide, ?_, by decide⟩
  intro hperm
  have hlen := hperm.length_eq
  simp at hlen

/-- **C6**: a projected record whose `mrn` is in the (mrn-unique) destination
mapping lands in `to_update` carrying the destination-supplied `record_id` —
not the source-derived guess — and its cells follow the re-ordered
`to_update_columns = [record_id, mrn, email_consent]`. -/
theorem c6_update_record_id (entries : List (Int × Int)) (df : List ProjRow)
    (m rid : Int) (hnd : (entries.map Prod.fst).Nodup) (hmem : (m, rid) ∈ entries) :
    ∃ upd crt, get_redcap_subjects_to_update df (mkLookup entries) = .ok (upd, crt)
    ∧ (∀ u ∈ upd, u.mrn = m →
        u.record_id = .vint rid
        ∧ u.cells = [.vint rid, .vint m, u.email_consent])
    ∧ to_update_columns = ["record_id", "mrn", "email_consent"] := by
  refine ⟨_, _, get_subjects_mkLookup df entries, ?_, rfl⟩
  intro u hu hum
  obtain ⟨r, hr, hin⟩ := List.mem_flatMap.mp hu
  have hkey : r.mrn ∈ entries.map Prod.fst := by
    simpa using (List.mem_filter.mp hr).2
  obtain ⟨p, hp, hp1⟩ := List.mem_map.mp hkey
  have hpm : (r.mrn, p.2) ∈ entries := by
    rw [← hp1]
    exact hp
  rw [lookupMatches_unique r.mrn p.2 entries hnd hpm] at hin
  simp only [List.map_cons, List.map_nil, List.mem_singleton] at hin
  subst hin
  simp only at hum
  subst hum
  have h2 := lookupMatches_unique r.mrn rid entries hnd hmem
  rw [lookupMatches_unique r.mrn p.2 entries hnd hpm] at h2
  have h3 : RVal.vint p.2 = RVal.vint rid := by
    injection h2 with h4
  rw [h3]
  exact ⟨rfl, rfl⟩

/-- Witness for C6: the mapping sends `mrn=12345` to `record_id=1`. -/
theorem c6_update_record_id_witness :
    ∃ upd crt, get_redcap_subjects_to_update
        [⟨12345, 12345, .vstr "a@x.com"⟩] (mkLookup [(12345, 1)]) = .ok (upd, crt)
    ∧ (∀ u ∈ upd, u.mrn = 12345 →
        u.record_id = .vint 1
        ∧ u.cells = [.vint 1, .vint 12345, u.email_consent])
    ∧ to_update_columns = ["record_id", "mrn", "email_consent"] :=
  c6_update_record_id [(12345, 1)] [⟨12345, 12345, .vstr "a@x.com"⟩] 12345 1
    (by decide) (by decide)

/-- **C1 (amended)**: transport failures on the destination import push and
on the source status write-back propagate as fatal errors, with no retry (one
call is issued, then the exception escapes; a failed update push prevents the
create push); any non-`NoData` exception escaping the `try` block is
re-raised by the run after the single cleanup.  But the shared fetch helper
converts a raised transport exception or a non-200 response into an *empty
DataFrame* instead of an error, so a destination-lookup transport failure
surfaces only indirectly as a `KeyError` on the empty frame, and a
source-export transport failure is indistinguishable from "no data". -/
theorem c1_transport_failures :
    (∀ (parse : String → Frame) (e : Exc), fetch_api_data parse (.exc e) = Frame.empty)
    ∧ (∀ (parse : String → Frame) (s : Nat) (t : String), s ≠ 200 →
        fetch_api_data parse (.resp s t) = Frame.empty)
    ∧ (∀ df : List ProjRow,
        get_redcap_subjects_to_update df Frame.empty = .error .keyError)
    ∧ (∀ (csv token : String) (upd : Bool) (e : Exc), csv ≠ "" →
        push_one (some csv) token upd (.exc e)
          = ([redcap_import_data token csv upd], some e))
    ∧ (∀ (uc : String) (ic : Option String) (token : String) (e : Exc)
          (r2 : HttpOutcome), uc ≠ "" →
        push_to_redcap (some uc) ic token (.exc e) r2
          = ([redcap_import_data token uc true], some e))
    ∧ (∀ (csv token : String) (upd : Bool) (s : Nat) (t : String),
        csv ≠ "" → 400 ≤ s →
        (push_one (some csv) token upd (.resp s t)).2 = some .httpError)
    ∧ (∀ (f : Frame) (e : Exc), f.isEmpty = false →
        set_status_in_ripple (some f) (.exc e) = (true, some .requestException))
    ∧ (∀ (env : MainEnv) (e : Exc), (mainTry env).2.2 = some e → e ≠ .noData →
        (mainRun env).2 = some e
        ∧ cleanupCalls (mainRun env).1
            = [cleanup_targets ((mainTry env).2.1.map Prod.snd)]) := by
  refine ⟨fun _ _ => rfl, ?_, ?_, ?_, ?_, ?_, ?_, ?_⟩
  · intro parse s t hs
    simp [fetch_api_data, hs]
  · intro df
    rw [get_redcap_subjects_to_update, if_pos (by simp [Frame.empty])]
  · intro csv token upd e hcsv
    simp [push_one, hcsv]
  · intro uc ic token e r2 huc
    simp [push_to_redcap, push_one, huc]
  · intro csv token upd s t hcsv hs
    simp [push_one, hcsv, raise_for_status, hs]
  · intro f e hf
    simp [set_status_in_ripple, hf]
  · intro env e hexc hne
    constructor
    · simp only [mainRun]
      rw [hexc]
      cases e with
      | noData => exact absurd rfl hne
      | _ => rfl
    · rw [mainRun, cleanupCalls_append, mainTry_no_cleanup]
      rfl

/-- Witness for C1 at concrete inputs: the empty-frame lookup aborts with
`KeyError`, and an update-push connection failure yields exactly one issued
call and the propagated exception (no retry, no create push). -/
theorem c1_transport_failures_witness :
    get_redcap_subjects_to_update [⟨1, 1, .nan⟩] Frame.empty = .error .keyError
    ∧ push_to_redcap (some "u,1") (some "i,2") "tok" (.exc .requestException)
        (.resp 200 "1")
      = ([redcap_import_data "tok" "u,1" true], some .requestException) :=
  ⟨c1_transport_failures.2.2.1 [⟨1, 1, .nan⟩],
   c1_transport_failures.2.2.2.2.1 "u,1" (some "i,2") "tok" .requestException
     (.resp 200 "1") (by decide)⟩

/-- Counterexample to **C1** as stated: a connection error on the source
export is absorbed by the repository's fetch helper into an empty frame, the
extraction turns the empty concatenation into `NoData`, and `main` swallows
it — the run completes WITHOUT error and issues no push: the transport
failure is converted into the `NoEligibleData` no-op path instead of
propagating as a fatal error. -/
theorem c1_counterexample :
    fetch_api_data (fun _ => Frame.empty) (.exc .requestException) = Frame.empty
    ∧ (mainRun
        { extract := (request_potential_participants
            [export_from_ripple (fun _ => Frame.empty) (.exc .requestException)]),
          prepRedcap := fun _ => .ok (false, false),
          prepRipple := fun _ => .ok [],
          push := none,
          writeback := fun _ _ => none }).2 = none
    ∧ Event.pushCall ∉ (mainRun
        { extract := (request_potential_participants
            [export_from_ripple (fun _ => Frame.empty) (.exc .requestException)]),
          prepRedcap := fun _ => .ok (false, false),
          prepRipple := fun _ => .ok [],
          push := none,
          writeback := fun _ _ => none }).1 := by decide

end HbnMigration
